import Mathlib

/-!
# conjur-authn-k8s-client: configuration loading and the certificate file waiter

A shallow embedding of `pkg/authenticator/config/config.go` (`NewFromEnv`,
`readSSLCert`) and of `pkg/utils/file.go` (`waitForFile`, `verifyFileExists`),
and a model of the rule validator `AuthnSettings.validate` that
`pkg/authenticator/config/validate_test.go` exercises, followed by the
properties proved about them.

Conventions of the embedding:

* the process environment is a function `String → String`, the behaviour of
  `os.Getenv` (an unset variable reads as the empty string);
* a Go `error` is a value of `GoError`; a nil error is `none`;
* calls to the outside world (`ioutil.ReadFile`, `os.Stat`, `os.Rename`, the
  debug log, the pause between two retries) are handed in as functions and
  every call is recorded in an event trace returned next to the result.
-/

namespace Conjur

/-! ## Errors and events -/

/-- The message constants of package `log` that `pkg/utils/file.go` refers to.
The package is not part of the sources at hand, so a constant is identified by
its name and not by its text. -/
inductive LogCode where
  | CAKC033
  | CAKC051
  | CAKC058
  | CAKC059
  deriving DecidableEq, Repr

/-- The format of a recorded message: a constant of package `log` or a string
literal written at the call site. -/
inductive Format where
  | code (c : LogCode)
  | lit (s : String)
  deriving DecidableEq, Repr

/-- An argument handed to a message format. -/
inductive Arg where
  | int (i : Int)
  | str (s : String)
  deriving DecidableEq, Repr

/-- Go `error` values.
* `recorded f args` is `log.RecordedError(f, args...)`;
* `errorf f args` is `fmt.Errorf(f, args...)`;
* `os permission msg` is an error handed back by the operating system (from
  `os.Stat`, `os.Rename`, `ioutil.ReadFile`); `permission` is what
  `os.IsPermission` answers on it. -/
inductive GoError where
  | recorded (f : Format) (args : List Arg)
  | errorf (f : String) (args : List Arg)
  | os (permission : Bool) (msg : String)
  deriving DecidableEq, Repr

/-- The behaviour of `os.IsPermission`: false on the nil error and on the errors built by
`log.RecordedError` and `fmt.Errorf`. -/
def IsPermission : Option GoError → Bool
  | some (GoError.os p _) => p
  | _ => false

/-- A call to the outside world. -/
inductive Event where
  | readFile (path : String)
  | stat (path : String)
  | debug (c : LogCode) (args : List Arg)
  | sleep
  | rename (oldpath newpath : String)
  deriving DecidableEq, Repr

/-! ## `pkg/authenticator/config/config.go` -/

/-- The process environment as `os.Getenv` shows it. -/
abbrev Env := String → String

/-- The file reading capability, `ioutil.ReadFile`: the contents or an error. -/
abbrev FileReader := String → Except GoError (List UInt8)

/-- The bytes of a string, Go's `[]byte(s)`. -/
def bytes (s : String) : List UInt8 := s.toUTF8.data.toList

/-- The struct `Config`. -/
structure Config where
  ContainerMode : String
  ConjurVersion : String
  Account : String
  URL : String
  Username : String
  PodName : String
  PodNamespace : String
  SSLCertificate : List UInt8
  ClientCertPath : String
  TokenFilePath : String
  deriving DecidableEq, Repr

/-- The variables `NewFromEnv` checks, in the order of its loop. -/
def requiredEnvvars : List String :=
  ["CONJUR_AUTHN_URL", "CONJUR_ACCOUNT", "CONJUR_AUTHN_LOGIN", "MY_POD_NAMESPACE", "MY_POD_NAME"]

/-- The error of the loop of `NewFromEnv` for an empty variable:
`fmt.Errorf("%s must be provided", envvar)`. -/
def mustBeProvided (envvar : String) : GoError :=
  GoError.errorf "%s must be provided" [Arg.str envvar]

/-- The loop of `NewFromEnv` over the required variables: it returns from the function
at the first variable that reads empty (`some` of the error), and falls through
(`none`) when none does. -/
def checkRequired (getenv : Env) : List String → Option GoError
  | [] => none
  | envvar :: rest =>
    if getenv envvar = "" then some (mustBeProvided envvar) else checkRequired getenv rest

/-- The error of `readSSLCert` when neither certificate source is set. -/
def certUnavailable : GoError :=
  GoError.errorf
    "at least one of CONJUR_SSL_CERTIFICATE and CONJUR_CERT_FILE must be provided" []

/-- The function `readSSLCert`: the certificate bytes or an error, and the file reads made. -/
def readSSLCert (getenv : Env) (ReadFile : FileReader) :
    Except GoError (List UInt8) × List Event :=
  let SSLCert := getenv "CONJUR_SSL_CERTIFICATE"
  let SSLCertPath := getenv "CONJUR_CERT_FILE"
  if SSLCert = "" ∧ SSLCertPath = "" then
    (Except.error certUnavailable, [])
  else if SSLCert ≠ "" then
    (Except.ok (bytes SSLCert), [])
  else
    (ReadFile SSLCertPath, [Event.readFile SSLCertPath])

/-- The function `NewFromEnv`. The result is Go's pair `(*Config, error)`, `none` standing for
nil, next to the file reads made. The two path arguments are the values the
pointers `clientCertPath` and `tokenPath` point to. -/
def NewFromEnv (getenv : Env) (ReadFile : FileReader) (clientCertPath tokenPath : String) :
    (Option Config × Option GoError) × List Event :=
  match checkRequired getenv requiredEnvvars with
  | some err => ((none, some err), [])
  | none =>
    match readSSLCert getenv ReadFile with
    | (Except.error err, evs) => ((none, some err), evs)
    | (Except.ok caCert, evs) =>
      let authnURL := getenv "CONJUR_AUTHN_URL"
      let account := getenv "CONJUR_ACCOUNT"
      let authnLogin := getenv "CONJUR_AUTHN_LOGIN"
      let podNamespace := getenv "MY_POD_NAMESPACE"
      let podName := getenv "MY_POD_NAME"
      let containerMode := getenv "CONTAINER_MODE"
      let conjurVersion :=
        if (getenv "CONJUR_VERSION").length = 0 then "5" else getenv "CONJUR_VERSION"
      ((some
          { ContainerMode := containerMode
            ConjurVersion := conjurVersion
            Account := account
            URL := authnURL
            Username := authnLogin
            PodName := podName
            PodNamespace := podNamespace
            SSLCertificate := caCert
            ClientCertPath := clientCertPath
            TokenFilePath := tokenPath },
        none), evs)

/-- An environment given by a list of bindings; the first binding of a name
counts and a name without binding reads as the empty string. -/
def envOf (bindings : List (String × String)) : Env :=
  fun name => ((bindings.lookup name).getD "")

/-- A file reader that finds every file, empty. -/
def emptyFiles : FileReader := fun _ => Except.ok []

/-- A file reader that finds no file. -/
def noFiles : FileReader :=
  fun path => Except.error (GoError.os false ("open " ++ path ++ ": no such file or directory"))

/-! ## Authentication modes -/

/-- The authentication modes of the specification. -/
inductive Mode where
  | kubernetes
  | jwt
  | unrecognized
  deriving DecidableEq, Repr

/-- Whether the characters `p` occur as one block in `s`. -/
def hasInfix (p : List Char) : List Char → Bool
  | [] => p.isEmpty
  | c :: cs => p.isPrefixOf (c :: cs) || hasInfix p cs

/-- Modelled from the spec: the mode detection (`getConfiguration`, which
validate_test.go calls and which is not part of the sources at hand). The mode
is the one the authentication URL indicates; the tests use the URLs `authn-k8s`
and `authn-jwt`. -/
def authnMode (url : String) : Mode :=
  if hasInfix "authn-k8s".data url.data then Mode.kubernetes
  else if hasInfix "authn-jwt".data url.data then Mode.jwt
  else Mode.unrecognized

/-- Modelled from the spec: the settings a mode requires (the rule validator that holds
them is not part of the sources at hand). Kubernetes: service URL, account,
login identity, pod name, pod namespace. JWT: service URL, account, JWT token
path. A failed mode detection asks for the URL. -/
def requiredFields : Mode → List String
  | Mode.kubernetes =>
    ["CONJUR_AUTHN_URL", "CONJUR_ACCOUNT", "CONJUR_AUTHN_LOGIN", "MY_POD_NAME", "MY_POD_NAMESPACE"]
  | Mode.jwt => ["CONJUR_AUTHN_URL", "CONJUR_ACCOUNT", "JWT_TOKEN_PATH"]
  | Mode.unrecognized => ["CONJUR_AUTHN_URL"]

/-! ## The settings of validate_test.go, read as environments -/

/-- The settings of the test "happy path - k8s". -/
def happyPathK8s : Env :=
  envOf [("CONJUR_AUTHN_URL", "authn-k8s"), ("CONJUR_ACCOUNT", "testAccount"),
    ("CONJUR_AUTHN_LOGIN", "host/myapp"), ("MY_POD_NAME", "testPodName"),
    ("MY_POD_NAMESPACE", "testNameSpace"), ("CONJUR_CLIENT_CERT_RETRY_COUNT_LIMIT", "7"),
    ("CONJUR_TOKEN_TIMEOUT", "6m0s"), ("CONTAINER_MODE", "init"),
    ("CONJUR_SSL_CERTIFICATE", "samplecertificate")]

/-- The Config that `NewFromEnv` builds for the store of the test "happy path - k8s". -/
def happyPathK8sConfig : Config :=
  { ContainerMode := "init"
    ConjurVersion := "5"
    Account := "testAccount"
    URL := "authn-k8s"
    Username := "host/myapp"
    PodName := "testPodName"
    PodNamespace := "testNameSpace"
    SSLCertificate := bytes "samplecertificate"
    ClientCertPath := "/etc/conjur/ssl/client.pem"
    TokenFilePath := "/run/conjur/access-token" }

/-- The settings of the test "happy path - jwt". -/
def happyPathJwt : Env :=
  envOf [("CONJUR_AUTHN_URL", "authn-jwt"), ("CONJUR_ACCOUNT", "testAccount"),
    ("JWT_TOKEN_PATH", "/tmp/token"), ("CONJUR_CLIENT_CERT_RETRY_COUNT_LIMIT", "7"),
    ("CONJUR_TOKEN_TIMEOUT", "6m0s"), ("CONTAINER_MODE", "init"),
    ("CONJUR_SSL_CERTIFICATE", "samplecertificate")]

/-- The settings of the test "error raised for invalid username". -/
def invalidUsername : Env :=
  envOf [("CONJUR_AUTHN_URL", "authn-k8s"), ("CONJUR_ACCOUNT", "testAccount"),
    ("CONJUR_AUTHN_LOGIN", "bad-username"), ("MY_POD_NAME", "testPodName"),
    ("MY_POD_NAMESPACE", "testNameSpace")]

/-- A store with the URL of a JWT authenticator and the five variables `NewFromEnv` checks,
an inline certificate and no JWT token path. -/
def jwtWithoutTokenPath : Env :=
  envOf [("CONJUR_AUTHN_URL", "authn-jwt"), ("CONJUR_ACCOUNT", "testAccount"),
    ("CONJUR_AUTHN_LOGIN", "host/myapp"), ("MY_POD_NAME", "testPodName"),
    ("MY_POD_NAMESPACE", "testNameSpace"), ("CONJUR_SSL_CERTIFICATE", "samplecertificate")]

/-- The settings of the test "happy path - k8s" with the inline certificate replaced by a
certificate file path. -/
def k8sWithCertFile : Env :=
  envOf [("CONJUR_AUTHN_URL", "authn-k8s"), ("CONJUR_ACCOUNT", "testAccount"),
    ("CONJUR_AUTHN_LOGIN", "host/myapp"), ("MY_POD_NAME", "testPodName"),
    ("MY_POD_NAMESPACE", "testNameSpace"), ("CONJUR_CERT_FILE", "/run/conjur/ca.pem")]

/-- The settings of the test "invalid jwt token path". -/
def invalidJwtTokenPath : Env :=
  envOf [("CONJUR_AUTHN_URL", "authn-jwt"), ("CONJUR_ACCOUNT", "testAccount"),
    ("CONJUR_CLIENT_CERT_RETRY_COUNT_LIMIT", "7"), ("CONJUR_TOKEN_TIMEOUT", "6m0s"),
    ("CONTAINER_MODE", "init"), ("CONJUR_SSL_CERTIFICATE", "samplecertificate"),
    ("JWT_TOKEN_PATH", "invalid//path")]

/-- The settings of the test "error raised for missing required setting". -/
def missingRequired : Env := envOf [("CONJUR_AUTHN_URL", "authn-jwt")]

/-- The settings of the test "error raised for invalid retry count limit". -/
def invalidRetryCountLimit : Env :=
  envOf [("CONJUR_AUTHN_URL", "authn-k8s"), ("CONJUR_ACCOUNT", "testAccount"),
    ("CONJUR_AUTHN_LOGIN", "host"), ("MY_POD_NAME", "testPodName"),
    ("MY_POD_NAMESPACE", "testNameSpace"), ("CONJUR_CLIENT_CERT_RETRY_COUNT_LIMIT", "seven")]

/-- The settings of the test "error raised for invalid timeout". -/
def invalidTimeout : Env :=
  envOf [("CONJUR_AUTHN_URL", "authn-k8s"), ("CONJUR_ACCOUNT", "testAccount"),
    ("CONJUR_AUTHN_LOGIN", "host"), ("MY_POD_NAME", "testPodName"),
    ("MY_POD_NAMESPACE", "testNameSpace"), ("CONJUR_CLIENT_CERT_RETRY_COUNT_LIMIT", "7"),
    ("CONJUR_TOKEN_TIMEOUT", "seventeen")]

/-- The settings of the test "error raised for invalid certificate". -/
def invalidCertificate : Env :=
  envOf [("CONJUR_AUTHN_URL", "authn-k8s"), ("CONJUR_ACCOUNT", "testAccount"),
    ("CONJUR_AUTHN_LOGIN", "host"), ("MY_POD_NAME", "testPodName"),
    ("MY_POD_NAMESPACE", "testNameSpace"), ("CONJUR_CLIENT_CERT_RETRY_COUNT_LIMIT", "7"),
    ("CONJUR_TOKEN_TIMEOUT", "6m0s"), ("CONTAINER_MODE", "init"),
    ("CONJUR_SSL_CERTIFICATE", ""), ("CONJUR_CERT_FILE", "")]

/-! ## The rule validator

validate_test.go exercises `AuthnSettings.validate`, which is not part of the
sources at hand. This section models it from the specification (4.2 and 7). -/

/-- Modelled from the spec: the settings store `AuthnSettings`, whose declaration is not part
of the sources at hand: a mapping from setting name to raw string value, read
the way Go reads a map of strings, an absent name giving the empty string. -/
abbrev AuthnSettings := String → String

/-- Modelled from the spec: the errors of the rule validator, whose constructors in package
`log` are not part of the sources at hand. The taxonomy of the spec, with the
constant validate_test.go uses for each: a missing required setting and its
name (CAKC062); an invalid format of the login identity and the value
(CAKC032); an invalid format of the JWT token path and the path (CAKC065); an
invalid type, the setting name and the raw value (CAKC060); no certificate
source available (CAKC007). -/
inductive ValidationError where
  | missingRequiredSetting (name : String)
  | invalidUsername (value : String)
  | invalidJwtPath (value : String)
  | invalidType (name value : String)
  | certificateUnavailable
  deriving DecidableEq, Repr

/-- Modelled from the spec: the syntax checks of the rule validator that the spec names and
does not define, taken as given: whether a JWT token path is a syntactically
valid filesystem path, whether a retry count limit parses as a non-negative
integer, whether a token timeout parses as a duration. -/
structure SyntaxChecks where
  validJwtPath : String → Bool
  validRetryCount : String → Bool
  validTimeout : String → Bool

/-- Modelled from the spec: the shape of a login identity, "`host/...` or bare `host`"; the
check is not part of the sources at hand. -/
def validUsername (value : String) : Bool :=
  value = "host" || "host/".data.isPrefixOf value.data

/-- Modelled from the spec: the presence rule of the rule validator, not part of the sources
at hand. A failed mode detection "itself yields a missing required setting error
for the URL"; otherwise every setting the mode requires and that is empty gives
an error carrying its name. -/
def presenceErrors (mode : Mode) (settings : AuthnSettings) : List ValidationError :=
  match mode with
  | Mode.unrecognized => [ValidationError.missingRequiredSetting "CONJUR_AUTHN_URL"]
  | m =>
    ((requiredFields m).filter (fun name => settings name = "")).map
      ValidationError.missingRequiredSetting

/-- Modelled from the spec: the format rules of the rule validator, not part of the sources
at hand: on a value that is present and malformed, an error carrying the value;
the login identity in Kubernetes mode, the JWT token path in JWT mode. -/
def formatErrors (checks : SyntaxChecks) (mode : Mode) (settings : AuthnSettings) :
    List ValidationError :=
  match mode with
  | Mode.kubernetes =>
    if settings "CONJUR_AUTHN_LOGIN" ≠ "" ∧ validUsername (settings "CONJUR_AUTHN_LOGIN") = false
    then [ValidationError.invalidUsername (settings "CONJUR_AUTHN_LOGIN")] else []
  | Mode.jwt =>
    if settings "JWT_TOKEN_PATH" ≠ "" ∧ checks.validJwtPath (settings "JWT_TOKEN_PATH") = false
    then [ValidationError.invalidJwtPath (settings "JWT_TOKEN_PATH")] else []
  | Mode.unrecognized => []

/-- Modelled from the spec: the type rules of the rule validator, not part of the sources at
hand: a retry count limit or a token timeout that is provided and does not
parse gives an error carrying the setting name and the raw value; an absent one
gives none. -/
def typeErrors (checks : SyntaxChecks) (settings : AuthnSettings) : List ValidationError :=
  (if settings "CONJUR_CLIENT_CERT_RETRY_COUNT_LIMIT" ≠ "" ∧
      checks.validRetryCount (settings "CONJUR_CLIENT_CERT_RETRY_COUNT_LIMIT") = false
    then [ValidationError.invalidType "CONJUR_CLIENT_CERT_RETRY_COUNT_LIMIT"
      (settings "CONJUR_CLIENT_CERT_RETRY_COUNT_LIMIT")] else [])
  ++
  (if settings "CONJUR_TOKEN_TIMEOUT" ≠ "" ∧
      checks.validTimeout (settings "CONJUR_TOKEN_TIMEOUT") = false
    then [ValidationError.invalidType "CONJUR_TOKEN_TIMEOUT" (settings "CONJUR_TOKEN_TIMEOUT")]
    else [])

/-- Modelled from the spec: the certificate rule of the rule validator, not part of the
sources at hand: "if neither is set, or the configured file path cannot be read
via the injected fileReader, a single no certificate source available error is
produced". An inline certificate that is set is the certificate, as in the
config builder, and the file is then not consulted. -/
def certificateErrors (settings : AuthnSettings) (readFile : FileReader) :
    List ValidationError :=
  if settings "CONJUR_SSL_CERTIFICATE" ≠ "" then []
  else if settings "CONJUR_CERT_FILE" = "" then [ValidationError.certificateUnavailable]
  else
    match readFile (settings "CONJUR_CERT_FILE") with
    | Except.ok _ => []
    | Except.error _ => [ValidationError.certificateUnavailable]

/-- Modelled from the spec: `AuthnSettings.validate`, which validate_test.go calls and which
is not part of the sources at hand: `validate(settings, fileReader)` selects
the mode from the authentication URL, runs all applicable rules whatever the
earlier ones found, and returns every error, in the order of the rules. -/
def validate (checks : SyntaxChecks) (settings : AuthnSettings) (readFile : FileReader) :
    List ValidationError :=
  presenceErrors (authnMode (settings "CONJUR_AUTHN_URL")) settings
    ++ formatErrors checks (authnMode (settings "CONJUR_AUTHN_URL")) settings
    ++ typeErrors checks settings
    ++ certificateErrors settings readFile

/-- Syntax checks for the examples: a path is taken as valid when it is not empty and has no
doubled separator, a retry count when it is a non-empty run of digits, a timeout
when it starts with a digit and ends in one of the units `s`, `m`, `h`. -/
def sampleChecks : SyntaxChecks :=
  { validJwtPath := fun s => s.data ≠ [] && !hasInfix "//".data s.data
    validRetryCount := fun s => s.data ≠ [] && s.data.all Char.isDigit
    validTimeout := fun s =>
      (match s.data.head? with | some c => c.isDigit | none => false) &&
        (match s.data.getLast? with | some c => c = 's' || c = 'm' || c = 'h' | none => false) }

/-! ## `pkg/utils/file.go` -/

/-- The struct `fileUtils`: the two dependencies `stat` and `isRegular`, over a type `α` of
file infos. `stat` answers Go's pair `(os.FileInfo, error)`. -/
structure fileUtils (α : Type) where
  stat : String → α × Option GoError
  isRegular : α → Bool

/-- The function `verifyFileExists`. -/
def verifyFileExists {α : Type} (path : String) (utilities : fileUtils α) : Option GoError :=
  match utilities.stat path with
  | (info, err) =>
    if IsPermission err then
      some (GoError.recorded (Format.code LogCode.CAKC058) [Arg.str path])
    else if err = none ∧ ¬ utilities.isRegular info = true then
      some (GoError.recorded (Format.code LogCode.CAKC059) [Arg.str path])
    else
      err

/-- Modelled from the spec: the type behind `NewLimitedBackOff`, which `waitForFile` calls
and which is not part of the sources at hand. It carries the retry interval, the
number of failed checks so far and the limit. -/
structure limitedBackOff where
  retryInterval : Nat
  retryCount : Nat
  retryLimit : Int
  deriving DecidableEq, Repr

/-- Modelled from the spec: `NewLimitedBackOff`, not part of the sources at hand; the
counter starts at zero. -/
def NewLimitedBackOff (retryInterval : Nat) (retryLimit : Int) : limitedBackOff :=
  { retryInterval := retryInterval, retryCount := 0, retryLimit := retryLimit }

/-- Modelled from the spec: the method `RetryCount` of the limited backoff, not part of
the sources at hand: the number of failed checks so far. -/
def limitedBackOff.RetryCount (b : limitedBackOff) : Nat := b.retryCount

/-- Modelled from the spec: the method `NextBackOff` of the limited backoff, not part of
the sources at hand. "Each failed check increments a retry counter; once the
counter exceeds `retryCountLimit`, transition to Exhausted": `none` is
`backoff.Stop`, `some` the backoff after the increment. The length of the pause
is left out. -/
def limitedBackOff.NextBackOff (b : limitedBackOff) : Option limitedBackOff :=
  if ((b.retryCount + 1 : Nat) : Int) > b.retryLimit then none
  else some { b with retryCount := b.retryCount + 1 }

/-- The loop of `backoff.Retry` from the library github.com/cenkalti/backoff: call the
operation; on a nil error return nil; otherwise ask the backoff, return the
error when it says stop, and pause and start over when it does not. The
operation sees the backoff (the closure in `waitForFile` reads its retry count)
and the number `k` of calls made before. `fuel` bounds the number of calls;
`none` is the answer of a loop that ran out of it. -/
def Retry {β : Type} (operation : β → Nat → Option GoError × List Event)
    (NextBackOff : β → Option β) : Nat → Nat → β → Option (Option GoError × List Event)
  | 0, _, _ => none
  | fuel + 1, k, b =>
    match operation b k with
    | (none, evs) => some (none, evs)
    | (some err, evs) =>
      match NextBackOff b with
      | none => some (some err, evs)
      | some b' =>
        match Retry operation NextBackOff fuel (k + 1) b' with
        | none => none
        | some (r, rest) => some (r, evs ++ Event.sleep :: rest)

/-- The path that `waitForFile` polls. -/
def staticPath : String := "/etc/conjur/ssl/client.pem"

/-- The closure that `waitForFile` hands to `backoff.Retry`: a debug message on every
call but the first, then `verifyFileExists` on the static path, which is one
call of `stat`. `utilities k` is what the two dependencies answer at call `k`
(counted from 0): `os.Stat` reads a file system that another process writes. -/
def checkOperation {α : Type} (path : String) (utilities : Nat → fileUtils α)
    (b : limitedBackOff) (k : Nat) : Option GoError × List Event :=
  ((verifyFileExists staticPath (utilities k)),
    (if b.RetryCount > 0 then [Event.debug LogCode.CAKC051 [Arg.str path]] else [])
      ++ [Event.stat staticPath])

/-- The error of `waitForFile` when polling failed. -/
def retryExhausted (retryCountLimit : Int) : GoError :=
  GoError.recorded (Format.code LogCode.CAKC033) [Arg.int retryCountLimit, Arg.str staticPath]

/-- The error of `waitForFile` when the rename failed. -/
def notCreated (path : String) : GoError :=
  GoError.recorded (Format.lit "Certificate file %s not created") [Arg.str path]

/-- The function `waitForFile`. `Rename` is `os.Rename`. The result is the returned error
(`none` for nil) and the trace of the calls made; the outer `none` is a polling
loop that ran out of `fuel`. -/
def waitForFile {α : Type} (fuel : Nat) (path : String) (retryCountLimit : Int)
    (utilities : Nat → fileUtils α) (Rename : String → String → Option GoError) :
    Option (Option GoError × List Event) :=
  match Retry (checkOperation path utilities) limitedBackOff.NextBackOff fuel 0
      (NewLimitedBackOff 100 retryCountLimit) with
  | none => none
  | some (some _, evs) => some (some (retryExhausted retryCountLimit), evs)
  | some (none, evs) =>
    match Rename staticPath path with
    | some _ => some (some (notCreated path), evs ++ [Event.rename staticPath path])
    | none => some (none, evs ++ [Event.rename staticPath path])

/-- The number of `stat` calls in a trace. -/
def statCalls (evs : List Event) : Nat :=
  (evs.filter (fun e => match e with | Event.stat _ => true | _ => false)).length

/-- The number of `rename` calls in a trace. -/
def renameCalls (evs : List Event) : Nat :=
  (evs.filter (fun e => match e with | Event.rename _ _ => true | _ => false)).length

/-- File utilities for a path where nothing is found. -/
def missingFile : fileUtils Bool :=
  { stat := fun path => (false, some (GoError.os false ("stat " ++ path ++ ": no such file or directory")))
    isRegular := fun info => info }

/-- File utilities for a path that may not be looked at. -/
def forbiddenFile : fileUtils Bool :=
  { stat := fun path => (false, some (GoError.os true ("stat " ++ path ++ ": permission denied")))
    isRegular := fun info => info }

/-- File utilities for a path that holds a regular file. -/
def regularFile : fileUtils Bool :=
  { stat := fun _ => (true, none)
    isRegular := fun info => info }

/-- File utilities for a path that holds a directory. -/
def directory : fileUtils Bool :=
  { stat := fun _ => (false, none)
    isRegular := fun info => info }

/-- A rename that succeeds. -/
def renameOk : String → String → Option GoError := fun _ _ => none

/-- A rename that fails. -/
def renameFails : String → String → Option GoError :=
  fun _ newpath => some (GoError.os true ("rename " ++ newpath ++ ": permission denied"))

/-- The events of the checks that follow a failed check: each is a pause, the
debug message and one `stat` call. -/
def laterChecks (path : String) : Nat → List Event
  | 0 => []
  | d + 1 =>
    Event.sleep :: Event.debug LogCode.CAKC051 [Arg.str path] :: Event.stat staticPath
      :: laterChecks path d

/-- The events of the first `d + 1` checks of `waitForFile`. -/
def pollTrace (path : String) (d : Nat) : List Event :=
  Event.stat staticPath :: laterChecks path d

/-- The events of check number `k`. -/
def checkEvents (path : String) (k : Nat) : List Event :=
  (if k > 0 then [Event.debug LogCode.CAKC051 [Arg.str path]] else []) ++ [Event.stat staticPath]

/-! ## Lemmas on the polling loop -/

theorem statCalls_laterChecks (path : String) (d : Nat) :
    statCalls (laterChecks path d) = d := by
  induction d with
  | zero => rfl
  | succ d ih =>
    simp only [statCalls] at ih
    simp [laterChecks, statCalls, ih]

theorem renameCalls_laterChecks (path : String) (d : Nat) :
    renameCalls (laterChecks path d) = 0 := by
  induction d with
  | zero => rfl
  | succ d ih =>
    simp only [renameCalls] at ih
    simp [laterChecks, renameCalls, ih]

theorem statCalls_pollTrace (path : String) (d : Nat) :
    statCalls (pollTrace path d) = d + 1 := by
  have h := statCalls_laterChecks path d
  simp only [statCalls] at h
  simp [pollTrace, statCalls, h]

theorem renameCalls_pollTrace (path : String) (d : Nat) :
    renameCalls (pollTrace path d) = 0 := by
  have h := renameCalls_laterChecks path d
  simp only [renameCalls] at h
  simp [pollTrace, renameCalls, h]

theorem renameCalls_append_rename (evs : List Event) (a b : String) :
    renameCalls (evs ++ [Event.rename a b]) = renameCalls evs + 1 := by
  simp [renameCalls]

/-- The polling loop from check `k` on, when check `k + d` is the first to succeed and is
within the limit: it returns nil after `d` further checks. -/
theorem Retry_found {α : Type} (path : String) (limit : Int) (utilities : Nat → fileUtils α) :
    ∀ (d k fuel : Nat), d < fuel → k + d ≤ limit.toNat →
      (∀ i, k ≤ i → i < k + d → verifyFileExists staticPath (utilities i) ≠ none) →
      verifyFileExists staticPath (utilities (k + d)) = none →
      Retry (checkOperation path utilities) limitedBackOff.NextBackOff fuel k
          { retryInterval := 100, retryCount := k, retryLimit := limit }
        = some (none, checkEvents path k ++ laterChecks path d) := by
  intro d
  induction d with
  | zero =>
    intro k fuel hf _ _ hok
    obtain ⟨f, rfl⟩ : ∃ f, fuel = f + 1 := ⟨fuel - 1, by omega⟩
    simp only [Nat.add_zero] at hok
    simp [Retry, checkOperation, hok, limitedBackOff.RetryCount, checkEvents, laterChecks]
  | succ d ih =>
    intro k fuel hf hle hfail hok
    obtain ⟨f, rfl⟩ : ∃ f, fuel = f + 1 := ⟨fuel - 1, by omega⟩
    have hk : verifyFileExists staticPath (utilities k) ≠ none := hfail k (le_refl k) (by omega)
    obtain ⟨err, herr⟩ : ∃ err, verifyFileExists staticPath (utilities k) = some err :=
      Option.ne_none_iff_exists'.mp hk
    have hnext : limitedBackOff.NextBackOff
        { retryInterval := 100, retryCount := k, retryLimit := limit }
        = some { retryInterval := 100, retryCount := k + 1, retryLimit := limit } := by
      simp only [limitedBackOff.NextBackOff]
      rw [if_neg (by omega)]
    have hrec := ih (k + 1) f (by omega) (by omega)
      (fun i h1 h2 => hfail i (by omega) (by omega))
      (by rw [show k + 1 + d = k + (d + 1) by omega]; exact hok)
    simp only [Retry, checkOperation, herr, hnext, hrec]
    simp [checkEvents, laterChecks, limitedBackOff.RetryCount]

/-- The polling loop from check `k` on, when no check up to the limit succeeds: it
returns the error of the last check, number `k + d`, after `d` further checks. -/
theorem Retry_exhausted {α : Type} (path : String) (limit : Int)
    (utilities : Nat → fileUtils α) :
    ∀ (d k fuel : Nat), d < fuel → k + d = limit.toNat →
      (∀ i, k ≤ i → i ≤ k + d → verifyFileExists staticPath (utilities i) ≠ none) →
      Retry (checkOperation path utilities) limitedBackOff.NextBackOff fuel k
          { retryInterval := 100, retryCount := k, retryLimit := limit }
        = some (verifyFileExists staticPath (utilities (k + d)),
            checkEvents path k ++ laterChecks path d) := by
  intro d
  induction d with
  | zero =>
    intro k fuel hf hle hfail
    obtain ⟨f, rfl⟩ : ∃ f, fuel = f + 1 := ⟨fuel - 1, by omega⟩
    have hk : verifyFileExists staticPath (utilities k) ≠ none := hfail k (le_refl k) (by omega)
    obtain ⟨err, herr⟩ : ∃ err, verifyFileExists staticPath (utilities k) = some err :=
      Option.ne_none_iff_exists'.mp hk
    have hnext : limitedBackOff.NextBackOff
        { retryInterval := 100, retryCount := k, retryLimit := limit } = none := by
      simp only [limitedBackOff.NextBackOff]
      rw [if_pos (by omega)]
    simp only [Nat.add_zero, Retry, checkOperation, herr, hnext]
    simp [checkEvents, laterChecks, limitedBackOff.RetryCount]
  | succ d ih =>
    intro k fuel hf hle hfail
    obtain ⟨f, rfl⟩ : ∃ f, fuel = f + 1 := ⟨fuel - 1, by omega⟩
    have hk : verifyFileExists staticPath (utilities k) ≠ none := hfail k (le_refl k) (by omega)
    obtain ⟨err, herr⟩ : ∃ err, verifyFileExists staticPath (utilities k) = some err :=
      Option.ne_none_iff_exists'.mp hk
    have hnext : limitedBackOff.NextBackOff
        { retryInterval := 100, retryCount := k, retryLimit := limit }
        = some { retryInterval := 100, retryCount := k + 1, retryLimit := limit } := by
      simp only [limitedBackOff.NextBackOff]
      rw [if_neg (by omega)]
    have hrec := ih (k + 1) f (by omega) (by omega)
      (fun i h1 h2 => hfail i (by omega) (by omega))
    rw [show k + 1 + d = k + (d + 1) by omega] at hrec
    simp only [Retry, checkOperation, herr, hnext, hrec]
    simp [checkEvents, laterChecks, limitedBackOff.RetryCount]

/-- The first successful check: if one of the checks up to number `n` succeeds, there is a
first one. -/
theorem exists_first_found {α : Type} (utilities : Nat → fileUtils α) (n : Nat)
    (h : ∃ k, k ≤ n ∧ verifyFileExists staticPath (utilities k) = none) :
    ∃ j, j ≤ n ∧ verifyFileExists staticPath (utilities j) = none ∧
      ∀ i, i < j → verifyFileExists staticPath (utilities i) ≠ none := by
  classical
  obtain ⟨k, hk, hok⟩ := h
  have hex : ∃ k, verifyFileExists staticPath (utilities k) = none := ⟨k, hok⟩
  refine ⟨Nat.find hex, le_trans (Nat.find_le hok) hk, Nat.find_spec hex, ?_⟩
  intro i hi
  exact Nat.find_min hex hi

/-- The function `waitForFile` when check `j` is the first to succeed and is within the limit:
polling stops there and the rename decides the result. -/
theorem waitForFile_of_found {α : Type} (fuel : Nat) (path : String) (limit : Int)
    (utilities : Nat → fileUtils α) (Rename : String → String → Option GoError) (j : Nat)
    (hfuel : limit.toNat < fuel) (hj : j ≤ limit.toNat)
    (hfail : ∀ i, i < j → verifyFileExists staticPath (utilities i) ≠ none)
    (hok : verifyFileExists staticPath (utilities j) = none) :
    waitForFile fuel path limit utilities Rename =
      match Rename staticPath path with
      | some _ =>
        some (some (notCreated path), pollTrace path j ++ [Event.rename staticPath path])
      | none => some (none, pollTrace path j ++ [Event.rename staticPath path]) := by
  have h := Retry_found path limit utilities j 0 fuel (by omega) (by omega)
    (fun i _ h2 => hfail i (by omega)) (by rw [Nat.zero_add]; exact hok)
  simp only [waitForFile, NewLimitedBackOff, h]
  cases Rename staticPath path <;> simp [checkEvents, pollTrace]

/-- The function `waitForFile` when no check up to the limit succeeds: all
`retryCountLimit + 1` checks are made (one check for a negative limit), the
result is the retry-exhausted error and no rename is attempted. -/
theorem waitForFile_of_exhausted {α : Type} (fuel : Nat) (path : String) (limit : Int)
    (utilities : Nat → fileUtils α) (Rename : String → String → Option GoError)
    (hfuel : limit.toNat < fuel)
    (hfail : ∀ i, i ≤ limit.toNat → verifyFileExists staticPath (utilities i) ≠ none) :
    waitForFile fuel path limit utilities Rename =
      some (some (retryExhausted limit), pollTrace path limit.toNat) := by
  have h := Retry_exhausted path limit utilities limit.toNat 0 fuel (by omega) (by omega)
    (fun i _ h2 => hfail i (by omega))
  obtain ⟨err, herr⟩ : ∃ err,
      verifyFileExists staticPath (utilities (0 + limit.toNat)) = some err :=
    Option.ne_none_iff_exists'.mp (hfail _ (by omega))
  rw [herr] at h
  simp only [waitForFile, NewLimitedBackOff, h]
  simp [checkEvents, pollTrace]

/-- A permission error from `stat` makes `verifyFileExists` return the CAKC058 error. -/
theorem verifyFileExists_of_permission {α : Type} (path : String) (utilities : fileUtils α)
    (h : IsPermission (utilities.stat path).2 = true) :
    verifyFileExists path utilities
      = some (GoError.recorded (Format.code LogCode.CAKC058) [Arg.str path]) := by
  simp [verifyFileExists, h]

/-! ## Lemmas on the loop over the required variables -/

theorem checkRequired_eq_none_iff (getenv : Env) (l : List String) :
    checkRequired getenv l = none ↔ ∀ v ∈ l, getenv v ≠ "" := by
  induction l with
  | nil => simp [checkRequired]
  | cons a l ih =>
    by_cases h : getenv a = ""
    · simp [checkRequired, h]
    · simp [checkRequired, h, ih]

theorem checkRequired_first (getenv : Env) (l : List String)
    (h : ∃ v ∈ l, getenv v = "") :
    ∃ pre v post, l = pre ++ v :: post ∧ (∀ w ∈ pre, getenv w ≠ "") ∧ getenv v = "" ∧
      checkRequired getenv l = some (mustBeProvided v) := by
  induction l with
  | nil => simp at h
  | cons a l ih =>
    by_cases ha : getenv a = ""
    · exact ⟨[], a, l, rfl, by simp, ha, by simp [checkRequired, ha]⟩
    · have h' : ∃ v ∈ l, getenv v = "" := by
        obtain ⟨v, hv, hve⟩ := h
        rcases List.mem_cons.mp hv with rfl | hv
        · exact absurd hve ha
        · exact ⟨v, hv, hve⟩
      obtain ⟨pre, v, post, hl, hpre, hv, hc⟩ := ih h'
      refine ⟨a :: pre, v, post, by simp [hl], ?_, hv, by simp [checkRequired, ha, hc]⟩
      intro w hw
      rcases List.mem_cons.mp hw with rfl | hw
      · exact ha
      · exact hpre w hw

/-! ## Configuration: `NewFromEnv` and `readSSLCert` -/

/-- Every required variable is set: `NewFromEnv` gets past its loop and its result is decided
by `readSSLCert`. -/
theorem NewFromEnv_of_required (getenv : Env) (ReadFile : FileReader)
    (clientCertPath tokenPath : String) (h : ∀ v ∈ requiredEnvvars, getenv v ≠ "") :
    NewFromEnv getenv ReadFile clientCertPath tokenPath =
      match readSSLCert getenv ReadFile with
      | (Except.error err, evs) => ((none, some err), evs)
      | (Except.ok caCert, evs) =>
        ((some
            { ContainerMode := getenv "CONTAINER_MODE"
              ConjurVersion :=
                if (getenv "CONJUR_VERSION").length = 0 then "5" else getenv "CONJUR_VERSION"
              Account := getenv "CONJUR_ACCOUNT"
              URL := getenv "CONJUR_AUTHN_URL"
              Username := getenv "CONJUR_AUTHN_LOGIN"
              PodName := getenv "MY_POD_NAME"
              PodNamespace := getenv "MY_POD_NAMESPACE"
              SSLCertificate := caCert
              ClientCertPath := clientCertPath
              TokenFilePath := tokenPath },
          none), evs) := by
  have hc := (checkRequired_eq_none_iff getenv requiredEnvvars).mpr h
  simp only [NewFromEnv, hc]

/-- The loop of `NewFromEnv` stops at the first of its five variables that reads empty: the
result is the one error that names this variable, no Config, and no file is
read. -/
theorem NewFromEnv_reports_first_missing (getenv : Env) (ReadFile : FileReader)
    (clientCertPath tokenPath : String) (h : ∃ v ∈ requiredEnvvars, getenv v = "") :
    ∃ pre v post, requiredEnvvars = pre ++ v :: post ∧ (∀ w ∈ pre, getenv w ≠ "") ∧
      getenv v = "" ∧
      NewFromEnv getenv ReadFile clientCertPath tokenPath
        = ((none, some (mustBeProvided v)), []) := by
  obtain ⟨pre, v, post, hl, hpre, hv, hc⟩ := checkRequired_first getenv requiredEnvvars h
  exact ⟨pre, v, post, hl, hpre, hv, by simp only [NewFromEnv, hc]⟩

/-- An environment that sets the five variables `NewFromEnv` checks and an inline certificate
is accepted: a Config and no error. -/
theorem NewFromEnv_accepts_inline (getenv : Env) (ReadFile : FileReader)
    (clientCertPath tokenPath : String) (h : ∀ v ∈ requiredEnvvars, getenv v ≠ "")
    (hcert : getenv "CONJUR_SSL_CERTIFICATE" ≠ "") :
    ∃ cfg, NewFromEnv getenv ReadFile clientCertPath tokenPath = ((some cfg, none), []) := by
  rw [NewFromEnv_of_required getenv ReadFile clientCertPath tokenPath h]
  simp [readSSLCert, hcert]

/-- Claim C5: in `readSSLCert`, a non-empty inline certificate is returned as its bytes and
no file is read, whatever the file path is; with an empty inline certificate and
a non-empty file path the result is what the one file read of that path
returns, so that a failed read is the error returned, without bytes. -/
theorem readSSLCert_resolution (getenv : Env) (ReadFile : FileReader) :
    (getenv "CONJUR_SSL_CERTIFICATE" ≠ "" →
      readSSLCert getenv ReadFile
        = (Except.ok (bytes (getenv "CONJUR_SSL_CERTIFICATE")), [])) ∧
    (getenv "CONJUR_SSL_CERTIFICATE" = "" → getenv "CONJUR_CERT_FILE" ≠ "" →
      readSSLCert getenv ReadFile
          = (ReadFile (getenv "CONJUR_CERT_FILE"),
              [Event.readFile (getenv "CONJUR_CERT_FILE")]) ∧
        ∀ err, ReadFile (getenv "CONJUR_CERT_FILE") = Except.error err →
          (readSSLCert getenv ReadFile).1 = Except.error err) := by
  refine ⟨?_, ?_⟩
  · intro h
    simp [readSSLCert, h]
  · intro h1 h2
    have h : readSSLCert getenv ReadFile
        = (ReadFile (getenv "CONJUR_CERT_FILE"),
            [Event.readFile (getenv "CONJUR_CERT_FILE")]) := by
      simp [readSSLCert, h1, h2]
    exact ⟨h, fun err he => by rw [h]; exact he⟩

/-- Claim C5, witness: an inline certificate next to files that cannot be read, and a
certificate file path alone. -/
theorem readSSLCert_resolution_witness :
    readSSLCert happyPathK8s noFiles
        = (Except.ok (bytes (happyPathK8s "CONJUR_SSL_CERTIFICATE")), []) ∧
    (readSSLCert k8sWithCertFile emptyFiles
        = (emptyFiles (k8sWithCertFile "CONJUR_CERT_FILE"),
            [Event.readFile (k8sWithCertFile "CONJUR_CERT_FILE")]) ∧
      ∀ err, emptyFiles (k8sWithCertFile "CONJUR_CERT_FILE") = Except.error err →
        (readSSLCert k8sWithCertFile emptyFiles).1 = Except.error err) :=
  ⟨(readSSLCert_resolution happyPathK8s noFiles).1 (by decide),
    (readSSLCert_resolution k8sWithCertFile emptyFiles).2 (by decide) (by decide)⟩

/-- Claim C7, as the code has it: `NewFromEnv` returns either no Config and an error, or a
Config and no error; and when it returns a Config, each of the five variables
it checks (URL, account, login, pod namespace, pod name) is non-empty in the
environment, whatever the mode, the fields URL, Account, Username, PodName and
PodNamespace of the Config are those settings, and SSLCertificate is the
certificate that `readSSLCert` resolved without error. -/
theorem NewFromEnv_all_or_nothing (getenv : Env) (ReadFile : FileReader)
    (clientCertPath tokenPath : String) :
    (((NewFromEnv getenv ReadFile clientCertPath tokenPath).1.1 = none ∧
        (NewFromEnv getenv ReadFile clientCertPath tokenPath).1.2 ≠ none) ∨
      ((NewFromEnv getenv ReadFile clientCertPath tokenPath).1.1 ≠ none ∧
        (NewFromEnv getenv ReadFile clientCertPath tokenPath).1.2 = none)) ∧
    ∀ cfg, (NewFromEnv getenv ReadFile clientCertPath tokenPath).1.1 = some cfg →
      (∀ v ∈ requiredEnvvars, getenv v ≠ "") ∧
      cfg.URL = getenv "CONJUR_AUTHN_URL" ∧
      cfg.Account = getenv "CONJUR_ACCOUNT" ∧
      cfg.Username = getenv "CONJUR_AUTHN_LOGIN" ∧
      cfg.PodName = getenv "MY_POD_NAME" ∧
      cfg.PodNamespace = getenv "MY_POD_NAMESPACE" ∧
      (readSSLCert getenv ReadFile).1 = Except.ok cfg.SSLCertificate := by
  cases hc : checkRequired getenv requiredEnvvars with
  | some err =>
    simp [NewFromEnv, hc]
  | none =>
    have hreq := (checkRequired_eq_none_iff getenv requiredEnvvars).mp hc
    rcases hr : readSSLCert getenv ReadFile with ⟨res, evs⟩
    cases res with
    | error err => simp [NewFromEnv, hc, hr]
    | ok caCert =>
      simp only [NewFromEnv, hc, hr]
      refine ⟨Or.inr (by simp), ?_⟩
      intro cfg hcfg
      simp only [Option.some.injEq] at hcfg
      subst hcfg
      exact ⟨hreq, rfl, rfl, rfl, rfl, rfl, rfl⟩

/-- Claim C7, witness: the store of the test "happy path - k8s" and the Config returned
for it. -/
theorem NewFromEnv_all_or_nothing_witness :
    (∀ v ∈ requiredEnvvars, happyPathK8s v ≠ "") ∧
    happyPathK8sConfig.URL = happyPathK8s "CONJUR_AUTHN_URL" ∧
    happyPathK8sConfig.Account = happyPathK8s "CONJUR_ACCOUNT" ∧
    happyPathK8sConfig.Username = happyPathK8s "CONJUR_AUTHN_LOGIN" ∧
    happyPathK8sConfig.PodName = happyPathK8s "MY_POD_NAME" ∧
    happyPathK8sConfig.PodNamespace = happyPathK8s "MY_POD_NAMESPACE" ∧
    (readSSLCert happyPathK8s noFiles).1 = Except.ok happyPathK8sConfig.SSLCertificate :=
  (NewFromEnv_all_or_nothing happyPathK8s noFiles "/etc/conjur/ssl/client.pem"
    "/run/conjur/access-token").2 happyPathK8sConfig rfl

/-- Claim C7, counterexample: an environment in JWT mode without the JWT token path, which
that mode requires, for which `NewFromEnv` returns a Config and no error. -/
theorem NewFromEnv_jwt_without_token_path :
    authnMode (jwtWithoutTokenPath "CONJUR_AUTHN_URL") = Mode.jwt ∧
    "JWT_TOKEN_PATH" ∈ requiredFields Mode.jwt ∧
    jwtWithoutTokenPath "JWT_TOKEN_PATH" = "" ∧
    (NewFromEnv jwtWithoutTokenPath noFiles "/etc/conjur/ssl/client.pem"
        "/run/conjur/access-token").1.1 ≠ none ∧
    (NewFromEnv jwtWithoutTokenPath noFiles "/etc/conjur/ssl/client.pem"
        "/run/conjur/access-token").1.2 = none := by
  decide

/-- Every error of `NewFromEnv` is the missing-setting error of a required variable, the
certificate-unavailable error, or the error of the file read: none speaks of
the format of a value. -/
theorem NewFromEnv_error_cases (getenv : Env) (ReadFile : FileReader)
    (clientCertPath tokenPath : String) (err : GoError)
    (h : (NewFromEnv getenv ReadFile clientCertPath tokenPath).1.2 = some err) :
    (∃ v ∈ requiredEnvvars, getenv v = "" ∧ err = mustBeProvided v) ∨
      err = certUnavailable ∨
      ReadFile (getenv "CONJUR_CERT_FILE") = Except.error err := by
  cases hc : checkRequired getenv requiredEnvvars with
  | some e =>
    have hex : ∃ v ∈ requiredEnvvars, getenv v = "" := by
      by_contra hno
      push_neg at hno
      rw [(checkRequired_eq_none_iff getenv requiredEnvvars).mpr hno] at hc
      exact absurd hc (by simp)
    obtain ⟨pre, v, post, hl, _, hv, hcv⟩ := checkRequired_first getenv requiredEnvvars hex
    left
    refine ⟨v, by rw [hl]; simp, hv, ?_⟩
    simp only [NewFromEnv, hcv, Option.some.injEq] at h
    exact h.symm
  | none =>
    right
    simp only [NewFromEnv, hc, readSSLCert] at h
    by_cases h1 : getenv "CONJUR_SSL_CERTIFICATE" = ""
    · by_cases h2 : getenv "CONJUR_CERT_FILE" = ""
      · left
        simp [h1, h2] at h
        exact h.symm
      · right
        simp only [h1, h2, and_false, if_false, ne_eq, not_true_eq_false] at h
        cases hr : ReadFile (getenv "CONJUR_CERT_FILE") with
        | error e => simp [hr] at h; rw [h]
        | ok b => simp [hr] at h
    · simp [h1] at h

/-! ## The rule validator -/

theorem count_missing_presenceErrors (mode : Mode) (settings : AuthnSettings) (field : String)
    (hreq : field ∈ requiredFields mode) (hempty : settings field = "") :
    (presenceErrors mode settings).count (ValidationError.missingRequiredSetting field) = 1 := by
  have hinj : Function.Injective ValidationError.missingRequiredSetting := by
    intro a b h
    injection h
  have key : ∀ l : List String, l.Nodup → field ∈ l →
      (((l.filter (fun name => settings name = "")).map
        ValidationError.missingRequiredSetting).count
          (ValidationError.missingRequiredSetting field)) = 1 := by
    intro l hl hmem
    rw [List.count_map_of_injective _ _ hinj, List.count_filter (by simpa using hempty)]
    exact List.count_eq_one_of_mem hl hmem
  cases mode with
  | kubernetes => exact key _ (by decide) hreq
  | jwt => exact key _ (by decide) hreq
  | unrecognized =>
    simp only [requiredFields, List.mem_singleton] at hreq
    subst hreq
    simp [presenceErrors]

theorem missing_not_mem_formatErrors (checks : SyntaxChecks) (mode : Mode)
    (settings : AuthnSettings) (field : String) :
    ValidationError.missingRequiredSetting field ∉ formatErrors checks mode settings := by
  cases mode <;> simp only [formatErrors] <;> first | (split <;> simp) | simp

theorem missing_not_mem_typeErrors (checks : SyntaxChecks) (settings : AuthnSettings)
    (field : String) :
    ValidationError.missingRequiredSetting field ∉ typeErrors checks settings := by
  simp only [typeErrors, List.mem_append, not_or]
  constructor <;> split <;> simp

theorem missing_not_mem_certificateErrors (settings : AuthnSettings) (readFile : FileReader)
    (field : String) :
    ValidationError.missingRequiredSetting field ∉ certificateErrors settings readFile := by
  simp only [certificateErrors]
  split
  · simp
  · split
    · simp
    · split <;> simp

theorem certificateUnavailable_not_mem_presenceErrors (mode : Mode) (settings : AuthnSettings) :
    ValidationError.certificateUnavailable ∉ presenceErrors mode settings := by
  cases mode <;> simp [presenceErrors]

theorem certificateUnavailable_not_mem_formatErrors (checks : SyntaxChecks) (mode : Mode)
    (settings : AuthnSettings) :
    ValidationError.certificateUnavailable ∉ formatErrors checks mode settings := by
  cases mode <;> simp only [formatErrors] <;> first | (split <;> simp) | simp

theorem certificateUnavailable_not_mem_typeErrors (checks : SyntaxChecks)
    (settings : AuthnSettings) :
    ValidationError.certificateUnavailable ∉ typeErrors checks settings := by
  simp only [typeErrors, List.mem_append, not_or]
  constructor <;> split <;> simp

/-- The certificate-unavailable errors of a validation are those of the certificate rule. -/
theorem count_certificateUnavailable_validate (checks : SyntaxChecks)
    (settings : AuthnSettings) (readFile : FileReader) :
    (validate checks settings readFile).count ValidationError.certificateUnavailable
      = (certificateErrors settings readFile).count ValidationError.certificateUnavailable := by
  simp only [validate, List.count_append]
  rw [List.count_eq_zero.mpr (certificateUnavailable_not_mem_presenceErrors _ settings),
    List.count_eq_zero.mpr (certificateUnavailable_not_mem_formatErrors checks _ settings),
    List.count_eq_zero.mpr (certificateUnavailable_not_mem_typeErrors checks settings)]
  simp

/-- The modelled validator gives what each case of `TestValidate` asserts, with the file
reader of the test, which finds every file. -/
theorem validate_meets_TestValidate :
    validate sampleChecks happyPathK8s emptyFiles = [] ∧
    validate sampleChecks happyPathJwt emptyFiles = [] ∧
    ValidationError.invalidJwtPath "invalid//path"
      ∈ validate sampleChecks invalidJwtTokenPath emptyFiles ∧
    ValidationError.missingRequiredSetting "CONJUR_ACCOUNT"
      ∈ validate sampleChecks missingRequired emptyFiles ∧
    ValidationError.invalidUsername "bad-username"
      ∈ validate sampleChecks invalidUsername emptyFiles ∧
    ValidationError.invalidType "CONJUR_CLIENT_CERT_RETRY_COUNT_LIMIT" "seven"
      ∈ validate sampleChecks invalidRetryCountLimit emptyFiles ∧
    ValidationError.invalidType "CONJUR_TOKEN_TIMEOUT" "seventeen"
      ∈ validate sampleChecks invalidTimeout emptyFiles ∧
    ValidationError.certificateUnavailable
      ∈ validate sampleChecks invalidCertificate emptyFiles := by
  decide

/-- Claim C1: for every settings store and every field that the mode of the store requires and
that is empty or absent in it, validation reports exactly one
missing-required-setting error naming that field, whatever the other settings,
the syntax checks and the file reader are; so when several required fields are
missing each of them is named, not only the first. -/
theorem validate_reports_each_missing (checks : SyntaxChecks) (settings : AuthnSettings)
    (readFile : FileReader) (field : String)
    (hreq : field ∈ requiredFields (authnMode (settings "CONJUR_AUTHN_URL")))
    (hempty : settings field = "") :
    (validate checks settings readFile).count (ValidationError.missingRequiredSetting field)
      = 1 := by
  simp only [validate, List.count_append]
  rw [count_missing_presenceErrors _ settings field hreq hempty,
    List.count_eq_zero.mpr (missing_not_mem_formatErrors checks _ settings field),
    List.count_eq_zero.mpr (missing_not_mem_typeErrors checks settings field),
    List.count_eq_zero.mpr (missing_not_mem_certificateErrors settings readFile field)]

/-- Claim C1, witness: the store of the test "error raised for missing required setting", in
which only the URL is set: the account and the JWT token path are both named,
once each. -/
theorem validate_reports_each_missing_witness :
    (validate sampleChecks missingRequired noFiles).count
        (ValidationError.missingRequiredSetting "CONJUR_ACCOUNT") = 1 ∧
    (validate sampleChecks missingRequired noFiles).count
        (ValidationError.missingRequiredSetting "JWT_TOKEN_PATH") = 1 :=
  ⟨validate_reports_each_missing sampleChecks missingRequired noFiles "CONJUR_ACCOUNT"
      (by decide) (by decide),
    validate_reports_each_missing sampleChecks missingRequired noFiles "JWT_TOKEN_PATH"
      (by decide) (by decide)⟩

/-- Claim C2: a settings store whose mode is detected, that satisfies every rule of that mode
and supplies a certificate is validated without error. In Kubernetes mode the
fields that must be set are URL, account, login, pod name and pod namespace; in
JWT mode only URL, account and JWT token path, so that a JWT store without
login, pod name and pod namespace is accepted. -/
theorem validate_accepts_valid (checks : SyntaxChecks) (settings : AuthnSettings)
    (readFile : FileReader)
    (hmode : authnMode (settings "CONJUR_AUTHN_URL") ≠ Mode.unrecognized)
    (hk8s : authnMode (settings "CONJUR_AUTHN_URL") = Mode.kubernetes →
      settings "CONJUR_AUTHN_URL" ≠ "" ∧ settings "CONJUR_ACCOUNT" ≠ "" ∧
      settings "CONJUR_AUTHN_LOGIN" ≠ "" ∧ settings "MY_POD_NAME" ≠ "" ∧
      settings "MY_POD_NAMESPACE" ≠ "" ∧
      validUsername (settings "CONJUR_AUTHN_LOGIN") = true)
    (hjwt : authnMode (settings "CONJUR_AUTHN_URL") = Mode.jwt →
      settings "CONJUR_AUTHN_URL" ≠ "" ∧ settings "CONJUR_ACCOUNT" ≠ "" ∧
      settings "JWT_TOKEN_PATH" ≠ "" ∧
      checks.validJwtPath (settings "JWT_TOKEN_PATH") = true)
    (hretry : settings "CONJUR_CLIENT_CERT_RETRY_COUNT_LIMIT" ≠ "" →
      checks.validRetryCount (settings "CONJUR_CLIENT_CERT_RETRY_COUNT_LIMIT") = true)
    (htimeout : settings "CONJUR_TOKEN_TIMEOUT" ≠ "" →
      checks.validTimeout (settings "CONJUR_TOKEN_TIMEOUT") = true)
    (hcert : settings "CONJUR_SSL_CERTIFICATE" ≠ "" ∨
      (settings "CONJUR_CERT_FILE" ≠ "" ∧
        ∃ cert, readFile (settings "CONJUR_CERT_FILE") = Except.ok cert)) :
    validate checks settings readFile = [] := by
  have htype : typeErrors checks settings = [] := by
    simp only [typeErrors]
    rw [if_neg (by
        rintro ⟨h1, h2⟩
        rw [hretry h1] at h2
        exact absurd h2 (by simp)),
      if_neg (by
        rintro ⟨h1, h2⟩
        rw [htimeout h1] at h2
        exact absurd h2 (by simp))]
    rfl
  have hcertErr : certificateErrors settings readFile = [] := by
    simp only [certificateErrors]
    rcases hcert with h | ⟨h1, cert, h2⟩
    · rw [if_pos h]
    · by_cases h : settings "CONJUR_SSL_CERTIFICATE" ≠ ""
      · rw [if_pos h]
      · rw [if_neg h, if_neg h1, h2]
  cases hm : authnMode (settings "CONJUR_AUTHN_URL") with
  | unrecognized => exact absurd hm hmode
  | kubernetes =>
    obtain ⟨h1, h2, h3, h4, h5, h6⟩ := hk8s hm
    simp [validate, hm, presenceErrors, requiredFields, formatErrors, htype, hcertErr,
      h1, h2, h3, h4, h5, h6]
  | jwt =>
    obtain ⟨h1, h2, h3, h4⟩ := hjwt hm
    simp [validate, hm, presenceErrors, requiredFields, formatErrors, htype, hcertErr,
      h1, h2, h3, h4]

/-- Claim C2, witness: the store of the test "happy path - jwt", which sets no login, pod name
or pod namespace, and the store of the test "happy path - k8s". -/
theorem validate_accepts_valid_witness :
    happyPathJwt "CONJUR_AUTHN_LOGIN" = "" ∧ happyPathJwt "MY_POD_NAME" = "" ∧
    happyPathJwt "MY_POD_NAMESPACE" = "" ∧
    validate sampleChecks happyPathJwt emptyFiles = [] ∧
    validate sampleChecks happyPathK8s emptyFiles = [] :=
  ⟨by decide, by decide, by decide,
    validate_accepts_valid sampleChecks happyPathJwt emptyFiles (by decide) (by decide)
      (by decide) (by decide) (by decide) (Or.inl (by decide)),
    validate_accepts_valid sampleChecks happyPathK8s emptyFiles (by decide) (by decide)
      (by decide) (by decide) (by decide) (Or.inl (by decide))⟩

/-- Claim C6, as amended: if the inline certificate and the certificate file path are both
empty or unset, validation yields exactly one certificate-unavailable error; if
the inline certificate alone is provided it yields none; if the file path alone
is provided it yields none when the file reader can read the file, and exactly
one when it cannot. -/
theorem validate_certificate_errors (checks : SyntaxChecks) (settings : AuthnSettings)
    (readFile : FileReader) :
    (settings "CONJUR_SSL_CERTIFICATE" = "" → settings "CONJUR_CERT_FILE" = "" →
      (validate checks settings readFile).count ValidationError.certificateUnavailable = 1) ∧
    (settings "CONJUR_SSL_CERTIFICATE" ≠ "" → settings "CONJUR_CERT_FILE" = "" →
      (validate checks settings readFile).count ValidationError.certificateUnavailable = 0) ∧
    (settings "CONJUR_SSL_CERTIFICATE" = "" → settings "CONJUR_CERT_FILE" ≠ "" →
      (∃ cert, readFile (settings "CONJUR_CERT_FILE") = Except.ok cert) →
      (validate checks settings readFile).count ValidationError.certificateUnavailable = 0) ∧
    (settings "CONJUR_SSL_CERTIFICATE" = "" → settings "CONJUR_CERT_FILE" ≠ "" →
      (∃ err, readFile (settings "CONJUR_CERT_FILE") = Except.error err) →
      (validate checks settings readFile).count ValidationError.certificateUnavailable = 1) := by
  rw [count_certificateUnavailable_validate]
  refine ⟨?_, ?_, ?_, ?_⟩
  · intro h1 h2
    simp [certificateErrors, h1, h2]
  · intro h1 _
    simp [certificateErrors, h1]
  · rintro h1 h2 ⟨cert, h3⟩
    simp [certificateErrors, h1, h2, h3]
  · rintro h1 h2 ⟨err, h3⟩
    simp [certificateErrors, h1, h2, h3]

/-- Claim C6, witness: no certificate source, an inline certificate alone, a file path alone
with a reader that finds the file, and with one that does not. -/
theorem validate_certificate_errors_witness :
    (validate sampleChecks invalidCertificate emptyFiles).count
        ValidationError.certificateUnavailable = 1 ∧
    (validate sampleChecks happyPathK8s noFiles).count
        ValidationError.certificateUnavailable = 0 ∧
    (validate sampleChecks k8sWithCertFile emptyFiles).count
        ValidationError.certificateUnavailable = 0 ∧
    (validate sampleChecks k8sWithCertFile noFiles).count
        ValidationError.certificateUnavailable = 1 :=
  ⟨(validate_certificate_errors sampleChecks invalidCertificate emptyFiles).1
      (by decide) (by decide),
    (validate_certificate_errors sampleChecks happyPathK8s noFiles).2.1
      (by decide) (by decide),
    (validate_certificate_errors sampleChecks k8sWithCertFile emptyFiles).2.2.1
      (by decide) (by decide) ⟨[], rfl⟩,
    (validate_certificate_errors sampleChecks k8sWithCertFile noFiles).2.2.2
      (by decide) (by decide) ⟨_, rfl⟩⟩

/-- Claim C6, counterexample: the certificate file path alone is provided, the inline
certificate is empty, every other rule is met, and the file cannot be read:
validation yields a certificate-unavailable error. -/
theorem validate_unreadable_certificate_file :
    k8sWithCertFile "CONJUR_SSL_CERTIFICATE" = "" ∧
    k8sWithCertFile "CONJUR_CERT_FILE" = "/run/conjur/ca.pem" ∧
    validate sampleChecks k8sWithCertFile noFiles
      = [ValidationError.certificateUnavailable] := by
  decide

/-- Claim C8: for every store in Kubernetes mode whose login identity is "bad-username",
validation reports the invalid-format error of the login identity carrying
exactly that value, once; for every store whose login identity is "host/myapp"
it reports no invalid-format error of the login identity. -/
theorem validate_login_format (checks : SyntaxChecks) (settings : AuthnSettings)
    (readFile : FileReader) :
    (authnMode (settings "CONJUR_AUTHN_URL") = Mode.kubernetes →
      settings "CONJUR_AUTHN_LOGIN" = "bad-username" →
      (validate checks settings readFile).count (ValidationError.invalidUsername "bad-username")
        = 1) ∧
    (settings "CONJUR_AUTHN_LOGIN" = "host/myapp" →
      ∀ value, ValidationError.invalidUsername value ∉ validate checks settings readFile) := by
  have hpres : ∀ mode value,
      ValidationError.invalidUsername value ∉ presenceErrors mode settings := by
    intro mode value
    cases mode <;> simp [presenceErrors]
  have htype : ∀ value, ValidationError.invalidUsername value ∉ typeErrors checks settings := by
    intro value
    simp only [typeErrors, List.mem_append, not_or]
    constructor <;> split <;> simp
  have hcert : ∀ value,
      ValidationError.invalidUsername value ∉ certificateErrors settings readFile := by
    intro value
    simp only [certificateErrors]
    split
    · simp
    · split
      · simp
      · split <;> simp
  refine ⟨?_, ?_⟩
  · intro hm hl
    have hbad : validUsername "bad-username" = false := by decide
    simp only [validate, List.count_append]
    rw [List.count_eq_zero.mpr (hpres _ _), List.count_eq_zero.mpr (htype _),
      List.count_eq_zero.mpr (hcert _)]
    simp [hm, formatErrors, hl, hbad]
  · intro hl value
    have hgood : validUsername "host/myapp" = true := by decide
    simp only [validate, List.mem_append, not_or]
    refine ⟨⟨⟨hpres _ _, ?_⟩, htype _⟩, hcert _⟩
    cases authnMode (settings "CONJUR_AUTHN_URL") with
    | kubernetes => simp [formatErrors, hl, hgood]
    | jwt => simp only [formatErrors]; split <;> simp
    | unrecognized => simp [formatErrors]

/-- Claim C8, witness: the store of the test "error raised for invalid username", and the store
of the test "happy path - k8s", whose login is "host/myapp". -/
theorem validate_login_format_witness :
    (validate sampleChecks invalidUsername emptyFiles).count
        (ValidationError.invalidUsername "bad-username") = 1 ∧
    ValidationError.invalidUsername "host/myapp"
      ∉ validate sampleChecks happyPathK8s emptyFiles :=
  ⟨(validate_login_format sampleChecks invalidUsername emptyFiles).1 (by decide) (by decide),
    (validate_login_format sampleChecks happyPathK8s emptyFiles).2 (by decide) "host/myapp"⟩

/-! ## The certificate file waiter: `verifyFileExists` and `waitForFile` -/

/-- Claim C9: `verifyFileExists` returns no error exactly when `stat` succeeds and the file
info is that of a regular file; a permission error from `stat` gives the CAKC058
error for the path, a successful `stat` of a file that is not regular gives the
CAKC059 error for the path, and any other error of `stat` is returned as it
is. -/
theorem verifyFileExists_spec {α : Type} (path : String) (utilities : fileUtils α) :
    (verifyFileExists path utilities = none ↔
      (utilities.stat path).2 = none ∧ utilities.isRegular (utilities.stat path).1 = true) ∧
    (IsPermission (utilities.stat path).2 = true →
      verifyFileExists path utilities
        = some (GoError.recorded (Format.code LogCode.CAKC058) [Arg.str path])) ∧
    ((utilities.stat path).2 = none → utilities.isRegular (utilities.stat path).1 = false →
      verifyFileExists path utilities
        = some (GoError.recorded (Format.code LogCode.CAKC059) [Arg.str path])) ∧
    (∀ err, (utilities.stat path).2 = some err → IsPermission (some err) = false →
      verifyFileExists path utilities = some err) := by
  rcases h : utilities.stat path with ⟨info, err⟩
  refine ⟨?_, ?_, ?_, ?_⟩
  · cases err with
    | none => simp [verifyFileExists, h, IsPermission]
    | some e =>
      by_cases hp : IsPermission (some e) = true
      · simp [verifyFileExists, h, hp]
      · simp [verifyFileExists, h, hp]
  · intro hp
    simp only at hp
    simp [verifyFileExists, h, hp]
  · intro he hr
    simp only at he hr
    subst he
    simp [verifyFileExists, h, IsPermission, hr]
  · intro e he hp
    simp only at he
    subst he
    simp [verifyFileExists, h, hp]

/-- Claim C9, witness: a path that may not be looked at, a directory, a missing file and a
regular file. -/
theorem verifyFileExists_spec_witness :
    verifyFileExists staticPath forbiddenFile
        = some (GoError.recorded (Format.code LogCode.CAKC058) [Arg.str staticPath]) ∧
    verifyFileExists staticPath directory
        = some (GoError.recorded (Format.code LogCode.CAKC059) [Arg.str staticPath]) ∧
    verifyFileExists staticPath missingFile
        = some (GoError.os false
            "stat /etc/conjur/ssl/client.pem: no such file or directory") ∧
    verifyFileExists staticPath regularFile = none :=
  ⟨(verifyFileExists_spec staticPath forbiddenFile).2.1 (by decide),
    (verifyFileExists_spec staticPath directory).2.2.1 (by decide) (by decide),
    (verifyFileExists_spec staticPath missingFile).2.2.2 _ rfl (by decide),
    (verifyFileExists_spec staticPath regularFile).1.mpr ⟨by decide, by decide⟩⟩

/-- Claim C3, as the code has it: `waitForFile` never returns the CAKC058 error; and a
permission error does not end the polling: when every existence check up to the
limit fails with a permission error, all `retryCountLimit + 1` checks are made
(one check for a negative limit) and the result is the retry-exhausted error
CAKC033. -/
theorem waitForFile_permission_retried {α : Type} (fuel : Nat) (path : String) (limit : Int)
    (utilities : Nat → fileUtils α) (Rename : String → String → Option GoError) :
    (∀ r evs, waitForFile fuel path limit utilities Rename = some (r, evs) →
      ∀ args, r ≠ some (GoError.recorded (Format.code LogCode.CAKC058) args)) ∧
    (limit.toNat < fuel →
      (∀ i, i ≤ limit.toNat → IsPermission ((utilities i).stat staticPath).2 = true) →
      waitForFile fuel path limit utilities Rename
          = some (some (retryExhausted limit), pollTrace path limit.toNat) ∧
        statCalls (pollTrace path limit.toNat) = limit.toNat + 1) := by
  refine ⟨?_, ?_⟩
  · intro r evs h args
    simp only [waitForFile] at h
    split at h
    · exact absurd h (by simp)
    · simp only [Option.some.injEq, Prod.mk.injEq] at h
      rw [← h.1]
      simp [retryExhausted]
    · split at h
      · simp only [Option.some.injEq, Prod.mk.injEq] at h
        rw [← h.1]
        simp [notCreated]
      · simp only [Option.some.injEq, Prod.mk.injEq] at h
        rw [← h.1]
        simp
  · intro hfuel hperm
    refine ⟨waitForFile_of_exhausted fuel path limit utilities Rename hfuel ?_,
      statCalls_pollTrace path limit.toNat⟩
    intro i hi
    rw [verifyFileExists_of_permission staticPath (utilities i) (hperm i hi)]
    simp

/-- Claim C3, witness: a source path that may never be looked at, and a limit of three. -/
theorem waitForFile_permission_retried_witness :
    waitForFile 4 "/etc/conjur/ssl/SELDON-client.pem" 3 (fun _ => forbiddenFile) renameOk
        = some (some (retryExhausted 3), pollTrace "/etc/conjur/ssl/SELDON-client.pem"
            (3 : Int).toNat) ∧
      statCalls (pollTrace "/etc/conjur/ssl/SELDON-client.pem" (3 : Int).toNat)
        = (3 : Int).toNat + 1 :=
  (waitForFile_permission_retried 4 "/etc/conjur/ssl/SELDON-client.pem" 3
    (fun _ => forbiddenFile) renameOk).2 (by decide) (fun _ _ => rfl)

/-- Claim C3, counterexample: the existence check fails with a permission error, and with a
limit of three `waitForFile` makes four checks and returns the retry-exhausted
error CAKC033, not the CAKC058 error. -/
theorem waitForFile_permission_not_terminal :
    IsPermission (forbiddenFile.stat staticPath).2 = true ∧
    waitForFile 4 "/etc/conjur/ssl/SELDON-client.pem" 3 (fun _ => forbiddenFile) renameOk
      = some (some (GoError.recorded (Format.code LogCode.CAKC033)
            [Arg.int 3, Arg.str staticPath]),
          [Event.stat staticPath,
            Event.sleep, Event.debug LogCode.CAKC051 [Arg.str "/etc/conjur/ssl/SELDON-client.pem"],
            Event.stat staticPath,
            Event.sleep, Event.debug LogCode.CAKC051 [Arg.str "/etc/conjur/ssl/SELDON-client.pem"],
            Event.stat staticPath,
            Event.sleep, Event.debug LogCode.CAKC051 [Arg.str "/etc/conjur/ssl/SELDON-client.pem"],
            Event.stat staticPath]) := by
  decide

/-- Claim C4, as the code has it: with enough fuel `waitForFile` returns, and it returns nil
exactly when one of the existence checks up to the limit found a regular file
at the static path and the rename to the target path succeeded; the rename of
the static path to the target path is then the last call made, and the only
rename. -/
theorem waitForFile_success_iff {α : Type} (fuel : Nat) (path : String) (limit : Int)
    (utilities : Nat → fileUtils α) (Rename : String → String → Option GoError)
    (hfuel : limit.toNat < fuel) :
    ∃ r evs, waitForFile fuel path limit utilities Rename = some (r, evs) ∧
      (r = none ↔
        (∃ k, k ≤ limit.toNat ∧ verifyFileExists staticPath (utilities k) = none) ∧
          Rename staticPath path = none) ∧
      (r = none →
        renameCalls evs = 1 ∧ evs.getLast? = some (Event.rename staticPath path)) := by
  by_cases hex : ∃ k, k ≤ limit.toNat ∧ verifyFileExists staticPath (utilities k) = none
  · obtain ⟨j, hj, hok, hfail⟩ := exists_first_found utilities limit.toNat hex
    have h := waitForFile_of_found fuel path limit utilities Rename j hfuel hj hfail hok
    cases hr : Rename staticPath path with
    | some e =>
      rw [hr] at h
      exact ⟨_, _, h, by simp, by simp⟩
    | none =>
      rw [hr] at h
      refine ⟨_, _, h, by simp [hex], fun _ => ⟨?_, by simp⟩⟩
      rw [renameCalls_append_rename, renameCalls_pollTrace]
  · have hfail : ∀ i, i ≤ limit.toNat → verifyFileExists staticPath (utilities i) ≠ none := by
      intro i hi hn
      exact hex ⟨i, hi, hn⟩
    exact ⟨_, _, waitForFile_of_exhausted fuel path limit utilities Rename hfuel hfail,
      by simp [hex], by simp⟩

/-- Claim C4, witness: the file appears at the third check and the rename succeeds. -/
theorem waitForFile_success_iff_witness :
    ∃ r evs, waitForFile 8 "/etc/conjur/ssl/SELDON-client.pem" 7
        (fun k => if k < 2 then missingFile else regularFile) renameOk = some (r, evs) ∧
      (r = none ↔
        (∃ k, k ≤ (7 : Int).toNat ∧ verifyFileExists staticPath
            ((fun k => if k < 2 then missingFile else regularFile) k) = none) ∧
          renameOk staticPath "/etc/conjur/ssl/SELDON-client.pem" = none) ∧
      (r = none →
        renameCalls evs = 1 ∧
          evs.getLast? = some (Event.rename staticPath "/etc/conjur/ssl/SELDON-client.pem")) :=
  waitForFile_success_iff 8 "/etc/conjur/ssl/SELDON-client.pem" 7
    (fun k => if k < 2 then missingFile else regularFile) renameOk (by decide)

/-- Claim C4, counterexample: the first existence check finds a regular file at the static
path, within any limit, and `waitForFile` does not return nil, because the
rename fails. -/
theorem waitForFile_found_but_rename_fails :
    verifyFileExists staticPath regularFile = none ∧
    waitForFile 1 "/etc/conjur/ssl/SELDON-client.pem" 0 (fun _ => regularFile) renameFails
      = some (some (GoError.recorded (Format.lit "Certificate file %s not created")
            [Arg.str "/etc/conjur/ssl/SELDON-client.pem"]),
          [Event.stat staticPath,
            Event.rename staticPath "/etc/conjur/ssl/SELDON-client.pem"]) := by
  decide

/-- Claim C10: when an existence check up to the limit finds a regular file at the static
path and the rename to the target path fails, `waitForFile` returns the error
"Certificate file %s not created" that names the target path, which is not the
retry-exhausted error CAKC033 (that one names the limit and the static path);
the rename is attempted at most once, and not at all when polling failed. -/
theorem waitForFile_rename_failure {α : Type} (fuel : Nat) (path : String) (limit : Int)
    (utilities : Nat → fileUtils α) (Rename : String → String → Option GoError)
    (hfuel : limit.toNat < fuel) :
    (∀ k err, k ≤ limit.toNat → verifyFileExists staticPath (utilities k) = none →
      Rename staticPath path = some err →
      ∃ evs, waitForFile fuel path limit utilities Rename
          = some (some (GoError.recorded (Format.lit "Certificate file %s not created")
              [Arg.str path]), evs) ∧
        renameCalls evs = 1) ∧
    GoError.recorded (Format.lit "Certificate file %s not created") [Arg.str path]
      ≠ GoError.recorded (Format.code LogCode.CAKC033) [Arg.int limit, Arg.str staticPath] ∧
    (∀ r evs, waitForFile fuel path limit utilities Rename = some (r, evs) →
      renameCalls evs ≤ 1) ∧
    ((∀ k, k ≤ limit.toNat → verifyFileExists staticPath (utilities k) ≠ none) →
      ∃ evs, waitForFile fuel path limit utilities Rename
          = some (some (GoError.recorded (Format.code LogCode.CAKC033)
              [Arg.int limit, Arg.str staticPath]), evs) ∧
        renameCalls evs = 0) := by
  refine ⟨?_, by simp, ?_, ?_⟩
  · intro k err hk hok hr
    obtain ⟨j, hj, hokj, hfail⟩ := exists_first_found utilities limit.toNat ⟨k, hk, hok⟩
    have h := waitForFile_of_found fuel path limit utilities Rename j hfuel hj hfail hokj
    rw [hr] at h
    refine ⟨_, h, ?_⟩
    rw [renameCalls_append_rename, renameCalls_pollTrace]
  · intro r evs h
    by_cases hex : ∃ k, k ≤ limit.toNat ∧ verifyFileExists staticPath (utilities k) = none
    · obtain ⟨j, hj, hokj, hfail⟩ := exists_first_found utilities limit.toNat hex
      have h' := waitForFile_of_found fuel path limit utilities Rename j hfuel hj hfail hokj
      rw [h] at h'
      have hevs : evs = pollTrace path j ++ [Event.rename staticPath path] := by
        cases hr : Rename staticPath path with
        | some e =>
          rw [hr] at h'
          simp only [Option.some.injEq, Prod.mk.injEq] at h'
          exact h'.2
        | none =>
          rw [hr] at h'
          simp only [Option.some.injEq, Prod.mk.injEq] at h'
          exact h'.2
      rw [hevs, renameCalls_append_rename, renameCalls_pollTrace]
    · have hfail : ∀ i, i ≤ limit.toNat →
          verifyFileExists staticPath (utilities i) ≠ none := by
        intro i hi hn
        exact hex ⟨i, hi, hn⟩
      have h' := waitForFile_of_exhausted fuel path limit utilities Rename hfuel hfail
      rw [h] at h'
      simp only [Option.some.injEq, Prod.mk.injEq] at h'
      rw [h'.2, renameCalls_pollTrace]
      exact Nat.zero_le 1
  · intro hfail
    exact ⟨_, waitForFile_of_exhausted fuel path limit utilities Rename hfuel hfail,
      renameCalls_pollTrace path limit.toNat⟩

/-- Claim C10, witness: the file is there at the first check and the rename is refused. -/
theorem waitForFile_rename_failure_witness :
    ∃ evs, waitForFile 8 "/etc/conjur/ssl/SELDON-client.pem" 7 (fun _ => regularFile)
        renameFails
        = some (some (GoError.recorded (Format.lit "Certificate file %s not created")
            [Arg.str "/etc/conjur/ssl/SELDON-client.pem"]), evs) ∧
      renameCalls evs = 1 :=
  (waitForFile_rename_failure 8 "/etc/conjur/ssl/SELDON-client.pem" 7 (fun _ => regularFile)
    renameFails (by decide)).1 0 _ (by decide) (by decide) rfl

end Conjur
